import Mathlib

/- Shallow embedding of the streaming chat subsystem of the repository:
   the chat POST route, the conversation routes, the per-conversation
   message read route, and the client chat interface component. -/

namespace ChatSpec

/-- JSON values as produced by the JavaScript JSON.parse builtin.
Number values keep their source lexeme. -/
inductive JVal where
  | jnull : JVal
  | jbool : Bool → JVal
  | jnum : String → JVal
  | jstr : String → JVal
  | jarr : List JVal → JVal
  | jobj : List (String × JVal) → JVal

/-- JSON whitespace characters accepted by JSON.parse. -/
def isJsonWs (c : Char) : Bool := c = ' ' ∨ c = '\t' ∨ c = '\n' ∨ c = '\r'

/-- Drop leading JSON whitespace. -/
def skipWs : List Char → List Char
  | [] => []
  | c :: cs => if isJsonWs c then skipWs cs else c :: cs

/-- Value of a hexadecimal digit. -/
def hexVal (c : Char) : Option Nat :=
  if '0' ≤ c ∧ c ≤ '9' then some (c.toNat - '0'.toNat)
  else if 'a' ≤ c ∧ c ≤ 'f' then some (c.toNat - 'a'.toNat + 10)
  else if 'A' ≤ c ∧ c ≤ 'F' then some (c.toNat - 'A'.toNat + 10)
  else none

/-- Parse the body of a JSON string literal, after the opening quote.
Returns the decoded string and the remaining input. -/
def parseStringBody : Nat → List Char → List Char → Option (String × List Char)
  | 0, _, _ => none
  | _ + 1, [], _ => none
  | fuel + 1, c :: rest, acc =>
    if c = '"' then some (String.mk acc.reverse, rest)
    else if c = '\\' then
      match rest with
      | [] => none
      | e :: rest2 =>
        if e = '"' then parseStringBody fuel rest2 ('"' :: acc)
        else if e = '\\' then parseStringBody fuel rest2 ('\\' :: acc)
        else if e = '/' then parseStringBody fuel rest2 ('/' :: acc)
        else if e = 'b' then parseStringBody fuel rest2 ('\x08' :: acc)
        else if e = 'f' then parseStringBody fuel rest2 ('\x0c' :: acc)
        else if e = 'n' then parseStringBody fuel rest2 ('\n' :: acc)
        else if e = 'r' then parseStringBody fuel rest2 ('\r' :: acc)
        else if e = 't' then parseStringBody fuel rest2 ('\t' :: acc)
        else if e = 'u' then
          match rest2 with
          | h1 :: h2 :: h3 :: h4 :: rest3 =>
            match hexVal h1, hexVal h2, hexVal h3, hexVal h4 with
            | some a, some b, some c2, some d =>
              parseStringBody fuel rest3
                (Char.ofNat (a * 4096 + b * 256 + c2 * 16 + d) :: acc)
            | _, _, _, _ => none
          | _ => none
        else none
    else if c.toNat < 32 then none
    else parseStringBody fuel rest (c :: acc)

/-- Is the character an ASCII decimal digit. -/
def isDig (c : Char) : Bool := '0' ≤ c ∧ c ≤ '9'

/-- Split off a maximal run of decimal digits. -/
def takeDigits : List Char → List Char × List Char
  | [] => ([], [])
  | c :: cs =>
    if isDig c then
      let p := takeDigits cs
      (c :: p.1, p.2)
    else ([], c :: cs)

/-- Parse a JSON number, returning its lexeme and the remaining input. -/
def parseNumber (cs : List Char) : Option (String × List Char) :=
  let p0 : List Char × List Char :=
    match cs with
    | '-' :: r => (['-'], r)
    | _ => ([], cs)
  match p0.2 with
  | [] => none
  | c :: _ =>
    if ¬ isDig c then none
    else
      let pInt := takeDigits p0.2
      if pInt.1.length > 1 ∧ pInt.1.headI = '0' then none
      else
        let pFrac : List Char × List Char :=
          match pInt.2 with
          | '.' :: r =>
            match r with
            | d :: _ =>
              if isDig d then
                let pd := takeDigits r
                ('.' :: pd.1, pd.2)
              else (['.'], r)
            | [] => (['.'], r)
          | _ => ([], pInt.2)
        if pFrac.1 = ['.'] then none
        else
          let pExp : Option (List Char × List Char) :=
            match pFrac.2 with
            | e :: r =>
              if e = 'e' ∨ e = 'E' then
                let ps : List Char × List Char :=
                  match r with
                  | s :: r2 => if s = '+' ∨ s = '-' then ([s], r2) else ([], r)
                  | [] => ([], r)
                match ps.2 with
                | d :: _ =>
                  if isDig d then
                    let pd := takeDigits ps.2
                    some (e :: (ps.1 ++ pd.1), pd.2)
                  else none
                | [] => none
              else some ([], pFrac.2)
            | [] => some ([], pFrac.2)
          match pExp with
          | none => none
          | some pe =>
            some (String.mk (p0.1 ++ pInt.1 ++ pFrac.1 ++ pe.1), pe.2)

/-- Does the input start with the given literal word. -/
def dropLit : List Char → List Char → Option (List Char)
  | [], cs => some cs
  | _ :: _, [] => none
  | w :: ws, c :: cs => if w = c then dropLit ws cs else none

mutual

/-- Fuel-based recursive-descent parser for one JSON value. -/
def parseVal : Nat → List Char → Option (JVal × List Char)
  | 0, _ => none
  | fuel + 1, cs =>
    match skipWs cs with
    | [] => none
    | c :: rest =>
      if c = '"' then
        match parseStringBody (rest.length + 1) rest [] with
        | some p => some (JVal.jstr p.1, p.2)
        | none => none
      else if c = '\x7b' then
        match skipWs rest with
        | '\x7d' :: r2 => some (JVal.jobj [], r2)
        | r2 => parseObjRest fuel r2 []
      else if c = '[' then
        match skipWs rest with
        | ']' :: r2 => some (JVal.jarr [], r2)
        | r2 => parseArrRest fuel r2 []
      else if c = 't' then
        match dropLit ['r', 'u', 'e'] rest with
        | some r2 => some (JVal.jbool true, r2)
        | none => none
      else if c = 'f' then
        match dropLit ['a', 'l', 's', 'e'] rest with
        | some r2 => some (JVal.jbool false, r2)
        | none => none
      else if c = 'n' then
        match dropLit ['u', 'l', 'l'] rest with
        | some r2 => some (JVal.jnull, r2)
        | none => none
      else
        match parseNumber (c :: rest) with
        | some p => some (JVal.jnum p.1, p.2)
        | none => none

/-- Parse the elements of a non-empty JSON array, accumulator reversed. -/
def parseArrRest : Nat → List Char → List JVal → Option (JVal × List Char)
  | 0, _, _ => none
  | fuel + 1, cs, acc =>
    match parseVal fuel cs with
    | none => none
    | some p =>
      match skipWs p.2 with
      | ',' :: r2 => parseArrRest fuel r2 (p.1 :: acc)
      | ']' :: r2 => some (JVal.jarr (p.1 :: acc).reverse, r2)
      | _ => none

/-- Parse the members of a non-empty JSON object, accumulator reversed. -/
def parseObjRest : Nat → List Char → List (String × JVal) → Option (JVal × List Char)
  | 0, _, _ => none
  | fuel + 1, cs, acc =>
    match skipWs cs with
    | '"' :: r =>
      match parseStringBody (r.length + 1) r [] with
      | none => none
      | some pk =>
        match skipWs pk.2 with
        | ':' :: r3 =>
          match parseVal fuel r3 with
          | none => none
          | some pv =>
            match skipWs pv.2 with
            | ',' :: r5 => parseObjRest fuel r5 ((pk.1, pv.1) :: acc)
            | '\x7d' :: r5 => some (JVal.jobj ((pk.1, pv.1) :: acc).reverse, r5)
            | _ => none
        | _ => none
    | _ => none

end

/-- Model of the JavaScript JSON.parse builtin: parse a full string,
requiring only trailing whitespace after the value. -/
def jsonParse (s : String) : Option JVal :=
  match parseVal (2 * s.length + 2) s.data with
  | some p => if skipWs p.2 = [] then some p.1 else none
  | none => none

/-- JavaScript property access `v.f` on a parsed JSON value: a field of an
object, `undefined` (here: `none`) on anything else. -/
def jsGet : JVal → String → Option JVal
  | JVal.jobj fields, f => (fields.find? (fun kv => kv.1 = f)).map Prod.snd
  | _, _ => none

/-- JavaScript truthiness of a possibly-undefined JSON value. -/
def jsTruthy : Option JVal → Bool
  | none => false
  | some JVal.jnull => false
  | some (JVal.jbool b) => b
  | some (JVal.jnum lex) => ¬ (lex = "0" ∨ lex = "-0" ∨ lex = "0.0")
  | some (JVal.jstr s) => s ≠ ""
  | some (JVal.jarr _) => true
  | some (JVal.jobj _) => true

/-- JavaScript strict equality `v === s` of a possibly-undefined JSON value
against a string literal. -/
def jsIsStr : Option JVal → String → Bool
  | some (JVal.jstr t), s => t = s
  | _, _ => false

mutual

/-- JavaScript string coercion of a parsed JSON value, as applied by the
`+=` operator. -/
def jsCoerce : JVal → String
  | JVal.jnull => "null"
  | JVal.jbool true => "true"
  | JVal.jbool false => "false"
  | JVal.jnum lex => lex
  | JVal.jstr s => s
  | JVal.jarr l => jsCoerceArr l
  | JVal.jobj _ => "[object Object]"

/-- JavaScript Array.prototype.toString: elements joined with commas,
null elements rendered empty. -/
def jsCoerceArr : List JVal → String
  | [] => ""
  | [JVal.jnull] => ""
  | [v] => jsCoerce v
  | JVal.jnull :: rest => "," ++ jsCoerceArr rest
  | v :: rest => jsCoerce v ++ "," ++ jsCoerceArr rest

end

/-- JavaScript `a || b` on possibly-undefined JSON values. -/
def jsOrJ (a b : Option JVal) : Option JVal := if jsTruthy a then a else b

/-- The canonical single-text content part, as built by the message read
route (an object with type "text" and the text itself). -/
def mkTextPartJ (t : String) : JVal :=
  JVal.jobj [("type", JVal.jstr "text"), ("text", JVal.jstr t)]

/-- One step of the message read route's multimodal mapping
(src/app/api/conversations/[conversationId]/messages, parsed-array branch). -/
def expandPart (part : JVal) : JVal :=
  if jsIsStr (jsGet part "type") "text" then
    JVal.jobj [("type", JVal.jstr "text"),
      ("text", (jsOrJ (jsGet part "text") (some (JVal.jstr ""))).getD (JVal.jstr ""))]
  else if jsIsStr (jsGet part "type") "image_url" ∧
      jsTruthy ((jsGet part "image_url").bind (fun v => jsGet v "url")) then
    JVal.jobj [("type", JVal.jstr "image_url"),
      ("image_url", JVal.jobj [("url",
        ((jsGet part "image_url").bind (fun v => jsGet v "url")).getD (JVal.jstr ""))])]
  else if jsIsStr (jsGet part "type") "image" ∧
      jsTruthy (jsOrJ (jsGet part "image") (jsGet part "url")) then
    JVal.jobj [("type", JVal.jstr "image_url"),
      ("image_url", JVal.jobj [("url",
        (jsOrJ (jsGet part "image") (jsGet part "url")).getD (JVal.jstr ""))])]
  else part

/-- Is the value the JSON null (filtered out after the mapping). -/
def isJNull : JVal → Bool
  | JVal.jnull => true
  | _ => false

/-- The message read route's content re-expansion: empty content becomes one
empty text part; a string not opening with a bracket is plain text; otherwise
it is speculatively JSON-parsed, arrays are mapped part-wise, and everything
else falls back to plain text. -/
def expandStored (content : String) : List JVal :=
  if content = "" then [mkTextPartJ ""]
  else if content.front ≠ '[' ∧ content.front ≠ '\x7b' then [mkTextPartJ content]
  else
    match jsonParse content with
    | some (JVal.jarr parts) => (parts.map expandPart).filter (fun p => ¬ isJNull p)
    | some _ => [mkTextPartJ content]
    | none => [mkTextPartJ content]

/-- One content part of a message as a JavaScript object: the discriminator
plus the optional string fields the routes inspect. `image_url` stands for
the `url` property of the nested `image_url` object (none when the field or
its url is absent). -/
structure RawPart where
  type : String := ""
  text : Option String := none
  image : Option String := none
  url : Option String := none
  data : Option String := none
  src : Option String := none
  image_url : Option String := none
deriving Repr, DecidableEq

/-- JavaScript truthiness of a possibly-undefined string field. -/
def truthyS : Option String → Bool
  | none => false
  | some s => s ≠ ""

/-- JavaScript `a || b` on possibly-undefined string fields. -/
def jsOrS (a b : Option String) : Option String := if truthyS a then a else b

/-- A text part (type "text") as built by the chat interface. -/
def mkText (t : String) : RawPart := { type := "text", text := some t }

/-- An image part (type "image") as built by the chat interface. -/
def mkImage (d : String) : RawPart := { type := "image", image := some d }

/-- The chat interface's outgoing parts array for the newly submitted turn
(chat-interface.tsx handleSubmit): a text part when the trimmed text is
non-empty, one image part per selected image, and a leading text part
unshifted when the list is empty or all-image. -/
def buildParts (userMessage : String) (imagesToSend : List String) : List RawPart :=
  let parts :=
    (if userMessage.trim ≠ "" then [mkText userMessage] else [])
      ++ imagesToSend.map mkImage
  if parts.isEmpty ∨ parts.all (fun p => p.type = "image") then
    mkText userMessage :: parts
  else parts

/-- The chat interface's parts array for a user message replayed from
history (chat-interface.tsx handleSubmit, history mapping). -/
def historyUserParts (content : String) (images : List String) : List RawPart :=
  let parts :=
    (if content ≠ "" ∧ content.trim ≠ "" ∧ content ≠ "[Image]" then [mkText content] else [])
      ++ images.map mkImage
  if parts.isEmpty ∨ parts.all (fun p => p.type = "image") then
    mkText content :: parts
  else parts

/-- The content field of a message in the chat route: a string, an array of
parts, or anything else (undefined, an object, ...). -/
inductive MContent where
  | str : String → MContent
  | parts : List RawPart → MContent
  | undef : MContent
deriving Repr, DecidableEq

/-- A message as handled by the chat route: an optional role, a content
field, and the optional UI-format parts array. -/
structure Msg where
  role : Option String := none
  content : MContent := MContent.undef
  parts : Option (List RawPart) := none
deriving Repr, DecidableEq

abbrev UserId := Nat
abbrev ConvId := Nat

/-- A persisted conversation record. The touched flag models the
last-activity bump performed on finish. -/
structure Conv where
  id : ConvId
  userId : UserId
  title : String
  touched : Bool := false
deriving Repr, DecidableEq

/-- A persisted message record. -/
structure StoredMsg where
  conversationId : ConvId
  role : String
  content : String
deriving Repr, DecidableEq

/-- The Conversation Store: conversation and message records, message
records in creation order. -/
structure Store where
  convs : List Conv := []
  msgs : List StoredMsg := []
deriving Repr, DecidableEq

/-- The messages field of the chat request body: absent or falsy, present
but not an array, or an array of possibly-null messages. -/
inductive BodyMessages where
  | missing : BodyMessages
  | notArray : BodyMessages
  | arr : List (Option Msg) → BodyMessages
deriving Repr, DecidableEq

/-- The chat request body. -/
structure ChatBody where
  messages : BodyMessages := BodyMessages.missing
  conversationId : Option ConvId := none
deriving Repr, DecidableEq

/-- Request body from its two fields. -/
def mkBody (bm : BodyMessages) (cid : Option ConvId) : ChatBody :=
  { messages := bm, conversationId := cid }

/-- A user message with plain string content. -/
def userMsg (t : String) : Msg := { role := some "user", content := MContent.str t }

/-- The HTTP response of the chat route: status, body (for a success, the
fully streamed text), and the X-Conversation-Id header. -/
structure ChatResponse where
  status : Nat
  body : String := ""
  convHeader : Option ConvId := none
deriving Repr, DecidableEq

/-- Observable side effects of one chat request. -/
structure ChatEffects where
  createdConv : Option (ConvId × String) := none
  savedUserMsg : Option (ConvId × String) := none
  savedAssistantMsg : Option (ConvId × String) := none
  touchedConv : Option ConvId := none
  modelCalled : Option (String × List Msg) := none
deriving Repr, DecidableEq

/-- The full outcome of one chat request. -/
structure ChatResult where
  response : ChatResponse
  store : Store
  effects : ChatEffects
deriving Repr, DecidableEq

/-- JavaScript truthiness of the role field. -/
def roleTruthy : Option String → Bool
  | none => false
  | some r => r ≠ ""

/-- The conversion attempt: on failure the original messages are used as-is
(chat route, convertToModelMessages fallback). The converter itself is the
external ai-sdk collaborator, passed in as a parameter. -/
def convertedOf (convert : List (Option Msg) → Option (List (Option Msg)))
    (ms : List (Option Msg)) : List (Option Msg) :=
  (convert ms).getD ms

/-- Filter keeping only non-null messages with a truthy role
(chat route, validMessages). -/
def validMessagesOf (converted : List (Option Msg)) : List Msg :=
  converted.filterMap (fun om =>
    match om with
    | some m => if roleTruthy m.role then some m else none
    | none => none)

/-- Conversation resolution: when an id is supplied, look up a conversation
with that id owned by the caller; absence yields none. -/
def resolveConv (store : Store) (user : UserId) (cid : Option ConvId) : Option Conv :=
  match cid with
  | some c => store.convs.find? (fun cv => cv.id = c ∧ cv.userId = user)
  | none => none

/-- Title derivation for a newly created conversation (chat route): the
first text part of the last user message, cut to 50 characters, or the
fixed placeholder. -/
def titleOf (validMessages : List Msg) : String :=
  let lastUserMessage := (validMessages.filter (fun m => m.role = some "user")).getLast?
  let title : String :=
    match lastUserMessage with
    | none => "New Conversation"
    | some m =>
      match m.content with
      | MContent.str s => s.take 50
      | MContent.parts l =>
        match l.find? (fun p => p.type = "text") with
        | some p => if truthyS p.text then (p.text.getD "").take 50 else "New Conversation"
        | none => "New Conversation"
      | MContent.undef => "New Conversation"
  if title.length > 50 then title.take 50 else title

/-- The fixed system directive prepended to every model call
(chat route, SYSTEM_PROMPT). -/
def SYSTEM_PROMPT : String :=
  "Tu es un assistant technique spécialisé. Tu dois TOUJOURS répondre en suivant cette structure exacte :\n\n**1. Résumé (2 lignes maximum)**\nUne synthèse claire et concise de la réponse.\n\n**2. Analyse technique**\nDétails techniques pertinents, concepts clés, et contexte nécessaire.\n\n**3. Références normatives**\nStandards, normes, bonnes pratiques, ou documentation officielle applicables.\n\n**4. Logique / Schéma (texte)**\nExplication de la logique, du flux de travail, ou de l\x27architecture (en format texte/pseudo-code).\n\n**5. Solutions / Recommandations**\nSolutions concrètes, étapes à suivre, ou recommandations actionnables.\n\n**6. Points de vigilance**\nRisques, limitations, pièges à éviter, ou considérations importantes.\n\n**7. Version courte** (si pertinent)\nRésumé ultra-concis pour référence rapide (optionnel selon le contexte).\n\nIMPORTANT: \n- Tu dois respecter cette structure pour TOUTES les réponses, sans exception. Ne fournis jamais de réponses non structurées.\n- Tu PEUX et DOIS analyser des images. Quand un utilisateur envoie une image, tu DOIS l\x27analyser en détail et fournir une réponse structurée selon le format ci-dessus.\n- Si un message contient une image, analyse-la complètement et décris ce que tu vois dans ta réponse."

/-- The system message prepended to the model input. -/
def systemMessage : Msg := { role := some "system", content := MContent.str SYSTEM_PROMPT }

/-- Filter dropping null, role-less and system-role messages from the model
input (chat route, modelMessages). -/
def modelMessagesOf (validMessages : List Msg) : List Msg :=
  validMessages.filter (fun m => roleTruthy m.role ∧ m.role ≠ some "system")

/-- The full message list handed to the model (chat route, allMessages). -/
def allMessagesOf (validMessages : List Msg) : List Msg :=
  systemMessage :: modelMessagesOf validMessages

/-- Vision detection (chat route, hasImagesInAnyMessage): some message has
an array content containing a part of type image_url with a truthy url. -/
def hasImagesInAnyMessage (msgs : List Msg) : Bool :=
  msgs.any (fun m =>
    match m.content with
    | MContent.parts l => l.any (fun c => c.type = "image_url" ∧ truthyS c.image_url)
    | _ => false)

/-- Model selection (chat route): the vision model when images are
detected, the cheaper model otherwise. -/
def modelNameOf (msgs : List Msg) : String :=
  if hasImagesInAnyMessage msgs then "gpt-4o" else "gpt-4o-mini"

/-- JavaScript whitespace characters matched by the regex class backslash-s. -/
def isJsWsChar (c : Char) : Bool :=
  c = ' ' ∨ c = '\t' ∨ c = '\n' ∨ c = '\r' ∨ c = '\x0b' ∨ c = '\x0c' ∨ c = ' '

/-- Remove every JavaScript whitespace character. -/
def stripJsWs (s : String) : String := String.mk (s.data.filter (fun c => ¬ isJsWsChar c))

/-- Characters of the base64 detection class of the chat route. -/
def isBase64Char (c : Char) : Bool :=
  ('A' ≤ c ∧ c ≤ 'Z') ∨ ('a' ≤ c ∧ c ≤ 'z') ∨ ('0' ≤ c ∧ c ≤ '9') ∨
    c = '+' ∨ c = '/' ∨ c = '='

/-- The chat route's convertImageToBase64 helper, string branch (the only
branch reachable from the save path, whose inputs are string fields):
data URIs and http(s) URLs pass through, blob URLs are dropped, long
base64-looking strings get a jpeg data-URI prefix, anything else yields
no image. -/
def convertImageToBase64 (s : String) : Option String :=
  if s.startsWith "data:image/" then some s
  else if s.startsWith "http://" ∨ s.startsWith "https://" then some s
  else if s.startsWith "blob:" then none
  else if s.length > 100 ∧ stripJsWs s ≠ "" ∧ (stripJsWs s).data.all isBase64Char then
    some ("data:image/jpeg;base64," ++ stripJsWs s)
  else none

/-- Hexadecimal digit for JSON string escapes. -/
def hexDigit (n : Nat) : String :=
  if n < 10 then String.singleton (Char.ofNat ('0'.toNat + n))
  else String.singleton (Char.ofNat ('a'.toNat + (n - 10)))

/-- JSON.stringify escaping of one character. -/
def escJsonChar (c : Char) : String :=
  if c = '"' then "\\\""
  else if c = '\\' then "\\\\"
  else if c = '\n' then "\\n"
  else if c = '\r' then "\\r"
  else if c = '\t' then "\\t"
  else if c = '\x08' then "\\b"
  else if c = '\x0c' then "\\f"
  else if c.toNat < 32 then "\\u00" ++ hexDigit (c.toNat / 16) ++ hexDigit (c.toNat % 16)
  else String.singleton c

/-- A JSON string literal as produced by JSON.stringify. -/
def jstrLit (s : String) : String :=
  "\"" ++ String.join (s.data.map escJsonChar) ++ "\""

/-- JSON.stringify of one content-part object, emitting the present fields. -/
def serializeRawPart (p : RawPart) : String :=
  let fs : List (Option String) :=
    [ some (jstrLit "type" ++ ":" ++ jstrLit p.type)
    , p.text.map (fun t => jstrLit "text" ++ ":" ++ jstrLit t)
    , p.image.map (fun t => jstrLit "image" ++ ":" ++ jstrLit t)
    , p.url.map (fun t => jstrLit "url" ++ ":" ++ jstrLit t)
    , p.data.map (fun t => jstrLit "data" ++ ":" ++ jstrLit t)
    , p.src.map (fun t => jstrLit "src" ++ ":" ++ jstrLit t)
    , p.image_url.map (fun t =>
        jstrLit "image_url" ++ ":" ++ "\x7b" ++ jstrLit "url" ++ ":" ++ jstrLit t ++ "\x7d") ]
  "\x7b" ++ String.intercalate "," (fs.filterMap id) ++ "\x7d"

/-- JSON.stringify of a content-part array. -/
def serializeParts (l : List RawPart) : String :=
  "[" ++ String.intercalate "," (l.map serializeRawPart) ++ "]"

/-- Does the original message carry image or file parts with data
(chat route, originalHasImages). -/
def originalHasImages (origParts : List RawPart) : Bool :=
  origParts.any (fun p =>
    (p.type = "image" ∧ truthyS p.image) ∨ (p.type = "file" ∧ truthyS p.url))

/-- The content array rebuilt from the original UI parts for saving
(chat route, contentForSaving followed by the Boolean filter): text parts
pass through, image and file parts become image_url parts via
convertImageToBase64, everything else is dropped. -/
def contentForSavingOf (origParts : List RawPart) : List RawPart :=
  origParts.filterMap (fun p =>
    if p.type = "text" then
      some { type := "text", text := some (p.text.getD "") }
    else if p.type = "image" ∨ p.type = "file" then
      let imageData := jsOrS p.url (jsOrS p.image (jsOrS p.data p.src))
      if truthyS imageData then
        match convertImageToBase64 (imageData.getD "") with
        | some b64 => some { type := "image_url", image_url := some b64 }
        | none => none
      else none
    else none)

/-- The string persisted for the latest user turn (chat route, lines
computing userMessageContent): empty when the last processed message is
not a user turn; otherwise the content of the message to save, preferring
the original parts when they carry images, serialized as JSON when it is
an array. -/
def userSaveContentOf (lastOriginal : Option Msg) (lastProcessed : Option Msg) : String :=
  match lastProcessed with
  | none => ""
  | some lp =>
    if lp.role = some "user" then
      let messageToSave : Msg :=
        match lastOriginal with
        | some lo =>
          match lo.parts with
          | some psL =>
            if originalHasImages psL then
              let filtered := contentForSavingOf psL
              if ¬ filtered.isEmpty then
                { role := lo.role, content := MContent.parts filtered }
              else lp
            else lp
          | none => lp
        | none => lp
      match messageToSave.content with
      | MContent.str s => s
      | MContent.parts l => serializeParts l
      | MContent.undef => ""
    else ""

/-- The conversation created by the chat route when resolution yielded
nothing and at least one valid message is present. -/
def createdConvOf (user : UserId) (freshId : ConvId) (conv0 : Option Conv) (vm : List Msg) :
    Option Conv :=
  if conv0.isNone ∧ vm ≠ [] then
    some { id := freshId, userId := user, title := titleOf vm }
  else none

/-- The user-turn content the chat route persists, empty without a
conversation. -/
def chatUserContentOf (ms : List (Option Msg)) (vm : List Msg) (conversation : Option Conv) :
    String :=
  match conversation with
  | some _ => userSaveContentOf ms.getLast?.join vm.getLast?
  | none => ""

/-- The user-turn row the chat route fires off, if any: requires a
conversation, non-empty content, and the write not failing. -/
def userSavedOf (conversation : Option Conv) (userContent : String) (userSaveFails : Bool) :
    Option (ConvId × String) :=
  match conversation with
  | some c => if userContent ≠ "" ∧ ¬ userSaveFails then some (c.id, userContent) else none
  | none => none

/-- The conversation the onFinish handler writes to, if any. -/
def finishOkOf (conversation : Option Conv) (finishSaveFails : Bool) : Option Conv :=
  match conversation with
  | some c => if ¬ finishSaveFails then some c else none
  | none => none

/-- Store update of the conversation creation (prisma conversation.create). -/
def appendConv (createdConv : Option Conv) (s : Store) : Store :=
  match createdConv with
  | some c => { s with convs := s.convs ++ [c] }
  | none => s

/-- Store update of the fire-and-forget user-turn save
(prisma message.create, errors swallowed). -/
def appendUserMsg (userSaved : Option (ConvId × String)) (s : Store) : Store :=
  match userSaved with
  | some p =>
    { s with msgs := s.msgs ++ [{ conversationId := p.1, role := "user", content := p.2 }] }
  | none => s

/-- Store update of the onFinish handler: persist the assistant turn and
bump the conversation last-activity, errors swallowed. -/
def applyFinish (finishOk : Option Conv) (text : String) (s : Store) : Store :=
  match finishOk with
  | some c =>
    { s with
      msgs := s.msgs ++ [{ conversationId := c.id, role := "assistant", content := text }],
      convs := s.convs.map (fun cv => if cv.id = c.id then { cv with touched := true } else cv) }
  | none => s

/-- The chat POST route (src/unnamed/part_008). Parameters: the resolved
session, the parsed body, the external ai-sdk converter (none models a
thrown conversion error), the id the store mints for a new conversation,
the model stream outcome (none models a streamText failure, some text a
completed stream), and flags making the two swallowed persistence writes
fail. Returns the HTTP response, the resulting store, and the observable
effects. -/
def chatPOST (auth : Option UserId) (body : ChatBody)
    (convert : List (Option Msg) → Option (List (Option Msg)))
    (freshId : ConvId) (stream : Option String)
    (userSaveFails finishSaveFails : Bool) (store : Store) : ChatResult :=
  match auth with
  | none =>
    { response := { status := 401, body := "Unauthorized" }, store := store, effects := {} }
  | some user =>
    match body.messages with
    | BodyMessages.missing =>
      { response := { status := 400, body := "Messages must be an array" },
        store := store, effects := {} }
    | BodyMessages.notArray =>
      { response := { status := 400, body := "Messages must be an array" },
        store := store, effects := {} }
    | BodyMessages.arr ms =>
      let validMessages := validMessagesOf (convertedOf convert ms)
      let conv0 := resolveConv store user body.conversationId
      let createdConv : Option Conv := createdConvOf user freshId conv0 validMessages
      let conversation : Option Conv := conv0 <|> createdConv
      let store1 : Store := appendConv createdConv store
      let userContent : String := chatUserContentOf ms validMessages conversation
      let userSaved : Option (ConvId × String) := userSavedOf conversation userContent userSaveFails
      let store2 : Store := appendUserMsg userSaved store1
      let allMessages := allMessagesOf validMessages
      let modelName := modelNameOf allMessages
      match stream with
      | none =>
        { response := { status := 500, body := "An error occurred" },
          store := store2,
          effects := { createdConv := createdConv.map (fun c => (c.id, c.title)),
                       savedUserMsg := userSaved,
                       modelCalled := some (modelName, allMessages) } }
      | some text =>
        let finishOk : Option Conv := finishOkOf conversation finishSaveFails
        let store3 : Store := applyFinish finishOk text store2
        { response := { status := 200, body := text, convHeader := conversation.map (fun c => c.id) },
          store := store3,
          effects := { createdConv := createdConv.map (fun c => (c.id, c.title)),
                       savedUserMsg := userSaved,
                       savedAssistantMsg := finishOk.map (fun c => (c.id, text)),
                       touchedConv := finishOk.map (fun c => c.id),
                       modelCalled := some (modelName, allMessages) } }

/-- Result of the conversation-creation route. -/
inductive ConvPostResult where
  | unauthorized : ConvPostResult
  | created : Conv → ConvPostResult
deriving Repr, DecidableEq

/-- The conversations POST route (src/unnamed/part_007): creates a
conversation titled New Conversation for the caller, with no message
writes. -/
def conversationsPOST (auth : Option UserId) (freshId : ConvId) (store : Store) :
    ConvPostResult × Store :=
  match auth with
  | none => (ConvPostResult.unauthorized, store)
  | some user =>
    let c : Conv := { id := freshId, userId := user, title := "New Conversation" }
    (ConvPostResult.created c, { store with convs := store.convs ++ [c] })

/-- Result of the per-conversation message read route. -/
inductive MessagesResult where
  | unauthorized : MessagesResult
  | notFound : MessagesResult
  | ok : List (String × List JVal) → MessagesResult

/-- The per-conversation message read route (src/unnamed/part_006): 404
when no conversation with that id is owned by the caller, otherwise the
conversation messages with content re-expanded. -/
def getMessages (auth : Option UserId) (cid : ConvId) (store : Store) : MessagesResult :=
  match auth with
  | none => MessagesResult.unauthorized
  | some user =>
    match store.convs.find? (fun cv => cv.id = cid ∧ cv.userId = user) with
    | none => MessagesResult.notFound
    | some _ =>
      MessagesResult.ok
        ((store.msgs.filter (fun m => m.conversationId = cid)).map
          (fun m => (m.role, expandStored m.content)))

/-- One wire line processed by the Stream Consumer (chat-interface.tsx,
stream read loop body): payload lines carry the 0: prefix and a JSON
remainder; text-delta events with a truthy delta are appended. -/
def deltaStep (acc : String) (line : String) : String :=
  if line.startsWith "0:" then
    match jsonParse (line.drop 2) with
    | some d =>
      if jsIsStr (jsGet d "type") "text-delta" ∧ jsTruthy (jsGet d "textDelta") then
        acc ++ jsCoerce ((jsGet d "textDelta").getD JVal.jnull)
      else acc
    | none => acc
  else acc

/-- The Stream Consumer read loop: each chunk is split on newlines and its
lines are folded into the growing assistant message. -/
def consumeStream (chunks : List String) : String :=
  chunks.foldl (fun acc chunk => (chunk.splitOn "\n").foldl deltaStep acc) ""

/-- Modelled from the spec: the text fragment of a valid payload line — a
line bearing the fixed prefix whose remainder parses as JSON with a
text-delta discriminator contributes its delta text, every other line
contributes nothing. -/
def claimFragment (line : String) : Option String :=
  if line.startsWith "0:" then
    match jsonParse (line.drop 2) with
    | some d =>
      if jsIsStr (jsGet d "type") "text-delta" ∧ jsTruthy (jsGet d "textDelta") then
        some (jsCoerce ((jsGet d "textDelta").getD JVal.jnull))
      else none
    | none => none
  else none

/-- Concatenation of a list of fragments in order. -/
def concatFrags (l : List String) : String := l.foldr (fun a b => a ++ b) ""

theorem truthyS_iff (o : Option String) : truthyS o = true ↔ o ≠ none ∧ o ≠ some "" := by
  cases o with
  | none => simp [truthyS]
  | some s => simp [truthyS]

theorem strAppend_assoc (a b c : String) : a ++ b ++ c = a ++ (b ++ c) := by
  cases a with
  | mk la =>
    cases b with
    | mk lb =>
      cases c with
      | mk lc =>
        show String.mk (la ++ lb ++ lc) = String.mk (la ++ (lb ++ lc))
        rw [List.append_assoc]

/- ===== C1 ===== -/

/-- C1, counterexample: the conversation-creation endpoint
(POST api/conversations) creates a conversation record while persisting
zero messages, so a conversation is created with zero turns. -/
theorem conversationsPOST_creates_empty_conversation :
    ((conversationsPOST (some 0) 1 { convs := [], msgs := [] }).2.convs =
      [{ id := 1, userId := 0, title := "New Conversation", touched := false }])
  ∧ ((conversationsPOST (some 0) 1 { convs := [], msgs := [] }).2.msgs.filter
      (fun m => m.conversationId = 1) = []) :=
  ⟨rfl, rfl⟩

/-- C1, amended: the chat POST pipeline creates a conversation only when at
least one valid (non-null, role-bearing) message is present in the request;
the dedicated conversation-creation endpoint, by contrast, does create
conversations with zero messages. -/
theorem chatPOST_creates_only_with_valid_messages
    (auth : Option UserId) (ms : List (Option Msg)) (cid : Option ConvId)
    (convert : List (Option Msg) → Option (List (Option Msg)))
    (freshId : ConvId) (stream : Option String) (f g : Bool) (store : Store)
    (h : (chatPOST auth { messages := BodyMessages.arr ms, conversationId := cid }
        convert freshId stream f g store).effects.createdConv.isSome = true) :
    validMessagesOf (convertedOf convert ms) ≠ [] := by
  intro hvm
  cases auth with
  | none => simp [chatPOST] at h
  | some user =>
    cases stream with
    | none => simp [chatPOST, createdConvOf, hvm] at h
    | some t => simp [chatPOST, createdConvOf, hvm] at h

/-- C1, witness for the amended theorem at a concrete request. -/
theorem chatPOST_creates_only_with_valid_messages_witness :
    validMessagesOf (convertedOf (fun l => some l)
      [some { role := some "user", content := MContent.str "Hello" }]) ≠ [] :=
  chatPOST_creates_only_with_valid_messages (some 7)
    [some { role := some "user", content := MContent.str "Hello" }] none
    (fun l => some l) 42 (some "answer") false false { convs := [], msgs := [] }
    (by decide)

/- ===== C4 ===== -/

/-- C4, amended: a messages field that is absent or not an array is rejected
with 400 before any model invocation and before any state change; a message
element missing its role, however, is silently filtered out rather than
rejected. -/
theorem non_array_messages_rejected_before_side_effects
    (user : UserId) (bm : BodyMessages) (cid : Option ConvId)
    (convert : List (Option Msg) → Option (List (Option Msg)))
    (freshId : ConvId) (stream : Option String) (f g : Bool) (store : Store)
    (h : bm = BodyMessages.missing ∨ bm = BodyMessages.notArray) :
    (chatPOST (some user) { messages := bm, conversationId := cid }
        convert freshId stream f g store).response.status = 400
  ∧ (chatPOST (some user) { messages := bm, conversationId := cid }
        convert freshId stream f g store).store = store
  ∧ (chatPOST (some user) { messages := bm, conversationId := cid }
        convert freshId stream f g store).effects = {} := by
  rcases h with h | h <;> subst h <;> exact ⟨rfl, rfl, rfl⟩

/-- C4, witness for the amended theorem at a concrete malformed request. -/
theorem non_array_messages_rejected_witness :
    (chatPOST (some 0) { messages := BodyMessages.notArray, conversationId := none }
        (fun l => some l) 1 (some "ok") false false { convs := [], msgs := [] }).response.status = 400
  ∧ (chatPOST (some 0) { messages := BodyMessages.notArray, conversationId := none }
        (fun l => some l) 1 (some "ok") false false { convs := [], msgs := [] }).store =
      { convs := [], msgs := [] }
  ∧ (chatPOST (some 0) { messages := BodyMessages.notArray, conversationId := none }
        (fun l => some l) 1 (some "ok") false false { convs := [], msgs := [] }).effects = {} :=
  non_array_messages_rejected_before_side_effects 0 BodyMessages.notArray none
    (fun l => some l) 1 (some "ok") false false { convs := [], msgs := [] } (Or.inr rfl)

/-- C4, counterexample: a request whose only message element is missing its
role is not rejected with 400; the pipeline proceeds and the model is
invoked. -/
theorem missing_role_message_not_rejected :
    (chatPOST (some 0) (mkBody (BodyMessages.arr [some { content := MContent.str "hi" }]) none)
      (fun l => some l) 1 (some "ok") false false { convs := [], msgs := [] }).response.status = 200
  ∧ (chatPOST (some 0) (mkBody (BodyMessages.arr [some { content := MContent.str "hi" }]) none)
      (fun l => some l) 1 (some "ok") false false { convs := [], msgs := [] }).effects.modelCalled.isSome
      = true :=
  ⟨rfl, rfl⟩

/- ===== C6 ===== -/

/-- C6: when the model stream itself succeeds, the HTTP response is the
same whether or not the swallowed persistence writes (user-turn save,
assistant-turn save with last-activity bump) fail. -/
theorem persistence_failures_never_change_response
    (auth : Option UserId) (body : ChatBody)
    (convert : List (Option Msg) → Option (List (Option Msg)))
    (freshId : ConvId) (text : String) (f1 g1 f2 g2 : Bool) (store : Store) :
    (chatPOST auth body convert freshId (some text) f1 g1 store).response =
      (chatPOST auth body convert freshId (some text) f2 g2 store).response := by
  cases auth with
  | none => rfl
  | some user =>
    cases body with
    | mk bm cid =>
      cases bm with
      | missing => rfl
      | notArray => rfl
      | arr ms => rfl

/- ===== C3 ===== -/

/-- Characterization of vision detection: some listed message has an array
content containing an image_url part with a non-empty url. -/
theorem hasImages_iff (msgs : List Msg) :
    hasImagesInAnyMessage msgs = true ↔
      ∃ m ∈ msgs, ∃ l, m.content = MContent.parts l ∧
        ∃ p ∈ l, p.type = "image_url" ∧ p.image_url ≠ none ∧ p.image_url ≠ some "" := by
  simp only [hasImagesInAnyMessage, List.any_eq_true]
  constructor
  · rintro ⟨m, hm, hmp⟩
    cases hc : m.content with
    | str s => rw [hc] at hmp; cases hmp
    | undef => rw [hc] at hmp; cases hmp
    | parts l =>
      rw [hc] at hmp
      simp only [List.any_eq_true, decide_eq_true_eq] at hmp
      obtain ⟨p, hp, h1, h2⟩ := hmp
      obtain ⟨h2a, h2b⟩ := (truthyS_iff _).1 h2
      exact ⟨m, hm, l, hc, p, hp, h1, h2a, h2b⟩
  · rintro ⟨m, hm, l, hc, p, hp, h1, h2, h3⟩
    refine ⟨m, hm, ?_⟩
    rw [hc]
    simp only [List.any_eq_true, decide_eq_true_eq]
    exact ⟨p, hp, h1, (truthyS_iff _).2 ⟨h2, h3⟩⟩

/-- C3, amended: the vision model is selected exactly when some message of
the model input carries an array content with a part of type image_url
bearing a non-empty url; image parts in the other encodings (type image
or file) do not trigger the vision model. -/
theorem model_selection_matches_image_url_parts_only (vm : List Msg) :
    modelNameOf (allMessagesOf vm) = "gpt-4o" ↔
      ∃ m ∈ allMessagesOf vm, ∃ l, m.content = MContent.parts l ∧
        ∃ p ∈ l, p.type = "image_url" ∧ p.image_url ≠ none ∧ p.image_url ≠ some "" := by
  rw [← hasImages_iff]
  unfold modelNameOf
  by_cases h : hasImagesInAnyMessage (allMessagesOf vm) = true
  · rw [h]
    simp
  · rw [Bool.not_eq_true] at h
    rw [h]
    simp

/-- C3, counterexample: a request whose message content carries an image
part in the image encoding (type image with data) selects the text-only
model, refuting selection regardless of encoding shape. -/
theorem image_encoded_part_selects_text_model :
    ((chatPOST (some 0) (mkBody (BodyMessages.arr [some { role := some "user", content := MContent.parts [mkImage "data:image/png;base64,iVBORw0KGgo"] }]) none) (fun l => some l) 1 (some "ok") false false { convs := [], msgs := [] }).effects.modelCalled.map Prod.fst = some "gpt-4o-mini")
  ∧ (mkImage "data:image/png;base64,iVBORw0KGgo").type = "image"
  ∧ truthyS (mkImage "data:image/png;base64,iVBORw0KGgo").image = true :=
  ⟨rfl, rfl, rfl⟩

/- ===== C10 ===== -/

/-- The model input after the system-role filter holds no system-role
message. -/
theorem modelMessagesOf_no_system (vm : List Msg) :
    (modelMessagesOf vm).all (fun m => m.role ≠ some "system") = true := by
  simp only [modelMessagesOf, List.all_eq_true, List.mem_filter, decide_eq_true_eq]
  intro m hm
  exact hm.2.2

/-- C10: the message list handed to the model starts with the fixed system
directive, and no other element carries the system role: caller-supplied
system messages are removed, so exactly one system message is sent. -/
theorem model_input_has_single_leading_system_directive
    (auth : Option UserId) (body : ChatBody)
    (convert : List (Option Msg) → Option (List (Option Msg)))
    (freshId : ConvId) (stream : Option String) (f g : Bool) (store : Store)
    (name : String) (msgs : List Msg)
    (h : (chatPOST auth body convert freshId stream f g store).effects.modelCalled =
      some (name, msgs)) :
    msgs.head? = some systemMessage
  ∧ msgs.tail.all (fun m => m.role ≠ some "system") = true := by
  cases auth with
  | none => exact absurd h (by simp [chatPOST])
  | some user =>
    cases body with
    | mk bm cid =>
      cases bm with
      | missing => exact absurd h (by simp [chatPOST])
      | notArray => exact absurd h (by simp [chatPOST])
      | arr ms =>
        cases stream with
        | none =>
          simp only [chatPOST, Option.some.injEq, Prod.mk.injEq] at h
          obtain ⟨h1, h2⟩ := h
          subst h2
          exact ⟨rfl, modelMessagesOf_no_system _⟩
        | some t =>
          simp only [chatPOST, Option.some.injEq, Prod.mk.injEq] at h
          obtain ⟨h1, h2⟩ := h
          subst h2
          exact ⟨rfl, modelMessagesOf_no_system _⟩

/-- C10, witness at a concrete request. -/
theorem model_input_single_system_witness :
    (allMessagesOf (validMessagesOf (convertedOf (fun l => some l) [some (userMsg "hi")]))).head?
      = some systemMessage
  ∧ (allMessagesOf (validMessagesOf (convertedOf (fun l => some l) [some (userMsg "hi")]))).tail.all
      (fun m => m.role ≠ some "system") = true :=
  model_input_has_single_leading_system_directive (some 0)
    (mkBody (BodyMessages.arr [some (userMsg "hi")]) none) (fun l => some l) 1 (some "ok")
    false false { convs := [], msgs := [] } "gpt-4o-mini"
    (allMessagesOf (validMessagesOf (convertedOf (fun l => some l) [some (userMsg "hi")]))) rfl

/- ===== C2 ===== -/

/-- The speculative JSON sniff of the read path re-parses a stored string
when it opens with a bracket and parses as a JSON array. -/
def sniffedArray (t : String) : Bool :=
  if t.front = '[' ∨ t.front = '\x7b' then
    match jsonParse t with
    | some (JVal.jarr _) => true
    | _ => false
  else false

/-- A stored string the sniff does not turn into an array re-expands to the
single text part holding it. -/
theorem expandStored_of_not_sniffed (t : String) (h : sniffedArray t = false) :
    expandStored t = [mkTextPartJ t] := by
  unfold expandStored
  by_cases h0 : t = ""
  · subst h0
    simp
  · rw [if_neg h0]
    by_cases h1 : t.front ≠ '[' ∧ t.front ≠ '\x7b'
    · rw [if_pos h1]
    · rw [if_neg h1]
      have hbr : t.front = '[' ∨ t.front = '\x7b' := by
        rcases not_and_or.1 h1 with hc | hc
        · exact Or.inl (not_not.1 hc)
        · exact Or.inr (not_not.1 hc)
      cases hp : jsonParse t with
      | none => rfl
      | some v =>
        cases v with
        | jnull => rfl
        | jbool b => rfl
        | jnum n => rfl
        | jstr s => rfl
        | jobj fs => rfl
        | jarr l =>
          exfalso
          unfold sniffedArray at h
          rw [if_pos hbr, hp] at h
          exact Bool.noConfusion h

/-- C2, amended: where the client builds the outgoing parts array (new turn
and replayed history), the result is always non-empty with a leading text
part; the server read path guarantees this only for stored content the
JSON sniff does not turn into an array — an image-only or empty stored
array survives re-expansion with no text part inserted. -/
theorem client_parts_lead_with_text_and_plain_reads_expand_to_text :
    (∀ um imgs, buildParts um imgs ≠ []
      ∧ (buildParts um imgs).head?.map (fun p => p.type) = some "text")
  ∧ (∀ c imgs, historyUserParts c imgs ≠ []
      ∧ (historyUserParts c imgs).head?.map (fun p => p.type) = some "text")
  ∧ (∀ t, sniffedArray t = false → expandStored t = [mkTextPartJ t]) := by
  refine ⟨?_, ?_, fun t h => expandStored_of_not_sniffed t h⟩
  · intro um imgs
    by_cases h : um.trim = ""
    · simp [buildParts, h, mkText, mkImage, List.all_map, Function.comp]
    · simp [buildParts, h, mkText, mkImage]
  · intro c imgs
    by_cases h : c ≠ "" ∧ c.trim ≠ "" ∧ c ≠ "[Image]"
    · simp [historyUserParts, h, mkText, mkImage]
    · simp [historyUserParts, h, mkText, mkImage, List.all_map, Function.comp]

/-- C2, witness for the amended theorem at concrete inputs. -/
theorem client_parts_lead_with_text_witness :
    (buildParts "" ["data:image/png;base64,AA"] ≠ []
      ∧ (buildParts "" ["data:image/png;base64,AA"]).head?.map (fun p => p.type) = some "text")
  ∧ (sniffedArray "plain text" = false ∧ expandStored "plain text" = [mkTextPartJ "plain text"]) :=
  ⟨client_parts_lead_with_text_and_plain_reads_expand_to_text.1 "" ["data:image/png;base64,AA"],
   rfl, client_parts_lead_with_text_and_plain_reads_expand_to_text.2.2 "plain text" rfl⟩

/-- C2, counterexample: an image-only stored array re-expands on the read
path to a list whose first (and only) element is an image part — no text
part is inserted at the front. -/
theorem expandStored_image_only_has_no_text_part :
    expandStored "[\x7b\"type\":\"image_url\",\"image_url\":\x7b\"url\":\"d\"\x7d\x7d]" =
      [JVal.jobj [("type", JVal.jstr "image_url"), ("image_url", JVal.jobj [("url", JVal.jstr "d")])]]
  ∧ jsIsStr (jsGet (JVal.jobj [("type", JVal.jstr "image_url"),
      ("image_url", JVal.jobj [("url", JVal.jstr "d")])]) "type") "text" = false :=
  ⟨rfl, rfl⟩

/- ===== C8 ===== -/

/-- C8, amended: for a latest user turn with plain string content, the write
path persists the compact bare string; the re-read yields the single
text-part canonical form exactly when the stored text is not both opening
with a bracket and parsing as a JSON array — otherwise the parsed array is
re-mapped instead. -/
theorem bare_string_round_trip_unless_json_array (t : String) (lo : Option Msg)
    (hlo : ∀ l, Option.bind lo Msg.parts = some l → originalHasImages l = false)
    (hsniff : sniffedArray t = false) :
    userSaveContentOf lo (some (userMsg t)) = t
  ∧ expandStored t = [mkTextPartJ t] := by
  constructor
  · unfold userSaveContentOf userMsg
    cases lo with
    | none => rfl
    | some m =>
      cases hm : m.parts with
      | none => simp [hm]
      | some psL =>
        have hoi := hlo psL (by simp [hm])
        simp [hm, hoi]
  · exact expandStored_of_not_sniffed t hsniff

/-- C8, witness for the amended theorem at a concrete text. -/
theorem bare_string_round_trip_witness :
    userSaveContentOf none (some (userMsg "hello")) = "hello"
  ∧ expandStored "hello" = [mkTextPartJ "hello"] :=
  bare_string_round_trip_unless_json_array "hello" none
    (fun _ h => Option.noConfusion h) rfl

/-- C8, counterexample: the compact bare-string form of the single text
part with text being the two-character JSON array text breaks the round
trip — the read path parses it as an (empty) array instead of returning
the original text part. -/
theorem bare_string_round_trip_fails_on_json_array_text :
    userSaveContentOf none (some (userMsg "[]")) = "[]"
  ∧ expandStored "[]" ≠ [mkTextPartJ "[]"] := by
  constructor
  · rfl
  · have h : expandStored "[]" = [] := rfl
    rw [h]
    exact fun hc => List.noConfusion hc

/- ===== C7 ===== -/

theorem concatFrags_cons (a : String) (l : List String) :
    concatFrags (a :: l) = a ++ concatFrags l := rfl

theorem concatFrags_append (l1 l2 : List String) :
    concatFrags (l1 ++ l2) = concatFrags l1 ++ concatFrags l2 := by
  induction l1 with
  | nil => rw [List.nil_append, concatFrags]; exact (String.empty_append _).symm
  | cons a l ih =>
    rw [List.cons_append, concatFrags_cons, concatFrags_cons, ih, strAppend_assoc]

/-- Processing one line appends exactly its fragment, when it has one. -/
theorem deltaStep_eq (acc line : String) :
    deltaStep acc line = acc ++ (claimFragment line).getD "" := by
  unfold deltaStep claimFragment
  by_cases h : line.startsWith "0:"
  · rw [if_pos h, if_pos h]
    cases hp : jsonParse (line.drop 2) with
    | none =>
      dsimp only
      exact (String.append_empty acc).symm
    | some d =>
      dsimp only
      by_cases hc : jsIsStr (jsGet d "type") "text-delta" = true ∧ jsTruthy (jsGet d "textDelta") = true
      · rw [if_pos hc, if_pos hc]
        rfl
      · rw [if_neg hc, if_neg hc]
        exact (String.append_empty acc).symm
  · rw [if_neg h, if_neg h]
    exact (String.append_empty acc).symm

/-- Folding the consumer step over a line list appends the concatenation of
the fragments of its valid payload lines, in order. -/
theorem foldl_deltaStep (lines : List String) :
    ∀ acc, lines.foldl deltaStep acc = acc ++ concatFrags (lines.filterMap claimFragment) := by
  induction lines with
  | nil =>
    intro acc
    rw [List.foldl_nil, List.filterMap_nil, concatFrags]
    exact (String.append_empty acc).symm
  | cons l ls ih =>
    intro acc
    rw [List.foldl_cons, ih, deltaStep_eq]
    cases hf : claimFragment l with
    | none =>
      rw [List.filterMap_cons_none hf, Option.getD_none, String.append_empty]
    | some fr =>
      rw [List.filterMap_cons_some hf, Option.getD_some, concatFrags_cons, strAppend_assoc]

/-- C7: the reassembled assistant message equals the concatenation, in
arrival order, of exactly the text fragments of the valid payload lines of
the delivered chunks; lines that fail to parse or carry another
discriminator contribute nothing. -/
theorem stream_reassembly_is_ordered_concatenation (chunks : List String) :
    consumeStream chunks =
      concatFrags ((chunks.flatMap (fun c => c.splitOn "\n")).filterMap claimFragment) := by
  have h : ∀ acc, chunks.foldl (fun acc chunk => (chunk.splitOn "\n").foldl deltaStep acc) acc
      = acc ++ concatFrags ((chunks.flatMap (fun c => c.splitOn "\n")).filterMap claimFragment) := by
    induction chunks with
    | nil =>
      intro acc
      rw [List.foldl_nil, List.flatMap_nil, List.filterMap_nil, concatFrags]
      exact (String.append_empty acc).symm
    | cons c cs ih =>
      intro acc
      rw [List.foldl_cons, foldl_deltaStep, ih, List.flatMap_cons]
      rw [List.filterMap_append, concatFrags_append, strAppend_assoc]
  have h0 := h ""
  rw [consumeStream, h0, String.empty_append]

/- ===== C5 ===== -/

theorem appendConv_msgs (cc : Option Conv) (s : Store) : (appendConv cc s).msgs = s.msgs := by
  cases cc <;> rfl

theorem appendUserMsg_convs (us : Option (ConvId × String)) (s : Store) :
    (appendUserMsg us s).convs = s.convs := by
  cases us <;> rfl

theorem createdConvOf_some (user : UserId) (freshId : ConvId) (conv0 : Option Conv)
    (vm : List Msg) (c1 : Conv) (h : createdConvOf user freshId conv0 vm = some c1) :
    c1.id = freshId ∧ c1.userId = user := by
  unfold createdConvOf at h
  split_ifs at h
  cases h
  exact ⟨rfl, rfl⟩

theorem userSavedOf_some (conversation : Option Conv) (uc : String) (f : Bool)
    (p : ConvId × String) (h : userSavedOf conversation uc f = some p) :
    ∃ c1, conversation = some c1 ∧ p.1 = c1.id := by
  cases conversation with
  | none => exact Option.noConfusion h
  | some c1 =>
    unfold userSavedOf at h
    split_ifs at h
    cases h
    exact ⟨c1, rfl, rfl⟩

theorem finishOkOf_some (conversation : Option Conv) (g : Bool) (c1 : Conv)
    (h : finishOkOf conversation g = some c1) : conversation = some c1 := by
  cases conversation with
  | none => exact Option.noConfusion h
  | some c =>
    unfold finishOkOf at h
    split_ifs at h
    cases h
    rfl

theorem applyFinish_convs_mem (fo : Option Conv) (t : String) (s : Store) (c : Conv)
    (hc : c ∈ (applyFinish fo t s).convs) :
    ∃ c0 ∈ s.convs, c.id = c0.id ∧ c.userId = c0.userId := by
  cases fo with
  | none => exact ⟨c, hc, rfl, rfl⟩
  | some fc =>
    simp only [applyFinish, List.mem_map] at hc
    obtain ⟨cv, hcv, hmap⟩ := hc
    by_cases hid : cv.id = fc.id
    · rw [if_pos hid] at hmap
      exact ⟨cv, hcv, by rw [← hmap], by rw [← hmap]⟩
    · rw [if_neg hid] at hmap
      exact ⟨cv, hcv, by rw [← hmap], by rw [← hmap]⟩

theorem appendConv_convs_mem (cc : Option Conv) (s : Store) (c : Conv)
    (hc : c ∈ (appendConv cc s).convs) : c ∈ s.convs ∨ cc = some c := by
  cases cc with
  | none => exact Or.inl hc
  | some c1 =>
    simp only [appendConv] at hc
    rcases List.mem_append.1 hc with h | h
    · exact Or.inl h
    · rw [List.mem_singleton.1 h]
      exact Or.inr rfl

/-- The store produced by a chat request carrying no conversation id,
expressed through the pipeline helpers. -/
theorem chatPOST_none_store (user : UserId) (ms : List (Option Msg))
    (convert : List (Option Msg) → Option (List (Option Msg)))
    (freshId : ConvId) (stream : Option String) (f g : Bool) (store : Store) :
    (chatPOST (some user) (mkBody (BodyMessages.arr ms) none) convert freshId stream f g store).store
      = (fun s2 =>
          match stream with
          | none => s2
          | some t =>
            applyFinish
              (finishOkOf
                (createdConvOf user freshId none (validMessagesOf (convertedOf convert ms))) g)
              t s2)
        (appendUserMsg
          (userSavedOf (createdConvOf user freshId none (validMessagesOf (convertedOf convert ms)))
            (chatUserContentOf ms (validMessagesOf (convertedOf convert ms))
              (createdConvOf user freshId none (validMessagesOf (convertedOf convert ms))))
            f)
          (appendConv (createdConvOf user freshId none (validMessagesOf (convertedOf convert ms)))
            store)) := by
  cases stream <;> rfl

theorem appendUserMsg_msgs_filter (cc : Option Conv) (uc : String) (f : Bool) (store : Store)
    (cid freshId : ConvId) (hfresh : freshId ≠ cid)
    (hccid : ∀ c1, cc = some c1 → c1.id = freshId) :
    ((appendUserMsg (userSavedOf cc uc f) (appendConv cc store)).msgs.filter
        (fun m => m.conversationId = cid))
      = store.msgs.filter (fun m => m.conversationId = cid) := by
  cases hus : userSavedOf cc uc f with
  | none =>
    rw [show appendUserMsg none (appendConv cc store) = appendConv cc store from rfl,
      appendConv_msgs]
  | some p =>
    obtain ⟨c1, hc1, hp1⟩ := userSavedOf_some cc uc f p hus
    have hid : p.1 = freshId := hp1.trans (hccid c1 hc1)
    simp only [appendUserMsg]
    rw [List.filter_append, appendConv_msgs]
    simp [hid, hfresh]

theorem applyFinish_msgs_filter (fo : Option Conv) (t : String) (s : Store)
    (cid freshId : ConvId) (hfresh : freshId ≠ cid)
    (hfoid : ∀ c1, fo = some c1 → c1.id = freshId) :
    ((applyFinish fo t s).msgs.filter (fun m => m.conversationId = cid))
      = s.msgs.filter (fun m => m.conversationId = cid) := by
  cases fo with
  | none => rfl
  | some c1 =>
    have hid : c1.id = freshId := hfoid c1 rfl
    simp only [applyFinish]
    rw [List.filter_append]
    simp [hid, hfresh]

/-- Without a supplied conversation id, the message rows of any other
conversation id are untouched by the chat route. -/
theorem chatPOST_none_msgs_filter (user : UserId) (ms : List (Option Msg))
    (convert : List (Option Msg) → Option (List (Option Msg)))
    (freshId : ConvId) (stream : Option String) (f g : Bool) (store : Store)
    (cid : ConvId) (hfresh : freshId ≠ cid) :
    ((chatPOST (some user) (mkBody (BodyMessages.arr ms) none) convert freshId stream f g
        store).store.msgs.filter (fun m => m.conversationId = cid))
      = store.msgs.filter (fun m => m.conversationId = cid) := by
  rw [chatPOST_none_store]
  generalize hcc :
    createdConvOf user freshId none (validMessagesOf (convertedOf convert ms)) = cc
  have hccid : ∀ c1, cc = some c1 → c1.id = freshId := fun c1 h1 =>
    (createdConvOf_some user freshId none _ c1 (hcc.trans h1)).1
  cases stream with
  | none =>
    exact appendUserMsg_msgs_filter cc _ f store cid freshId hfresh hccid
  | some t =>
    rw [applyFinish_msgs_filter _ _ _ cid freshId hfresh
      (fun c1 h1 => hccid c1 (finishOkOf_some cc g c1 h1))]
    exact appendUserMsg_msgs_filter cc _ f store cid freshId hfresh hccid

/-- Without a supplied conversation id, every conversation row of the
resulting store is the freshly minted one or keeps the id and owner of a
pre-existing row. -/
theorem chatPOST_none_convs_mem (user : UserId) (ms : List (Option Msg))
    (convert : List (Option Msg) → Option (List (Option Msg)))
    (freshId : ConvId) (stream : Option String) (f g : Bool) (store : Store) (c : Conv)
    (hc : c ∈ (chatPOST (some user) (mkBody (BodyMessages.arr ms) none) convert freshId
        stream f g store).store.convs) :
    c.id = freshId ∨ ∃ c0 ∈ store.convs, c.id = c0.id ∧ c.userId = c0.userId := by
  rw [chatPOST_none_store] at hc
  revert hc
  generalize hcc :
    createdConvOf user freshId none (validMessagesOf (convertedOf convert ms)) = cc
  intro hc
  cases stream with
  | none =>
    rw [show ((fun s2 => s2)
        (appendUserMsg (userSavedOf cc (chatUserContentOf ms _ cc) f) (appendConv cc store)))
      = appendUserMsg (userSavedOf cc (chatUserContentOf ms _ cc) f) (appendConv cc store)
      from rfl] at hc
    rw [appendUserMsg_convs] at hc
    rcases appendConv_convs_mem cc store c hc with h | h
    · exact Or.inr ⟨c, h, rfl, rfl⟩
    · exact Or.inl (createdConvOf_some user freshId none _ c (hcc.trans h)).1
  | some t =>
    obtain ⟨c0, hc0, hid, huid⟩ := applyFinish_convs_mem _ _ _ _ hc
    rw [appendUserMsg_convs] at hc0
    rcases appendConv_convs_mem cc store c0 hc0 with h | h
    · exact Or.inr ⟨c0, h, hid, huid⟩
    · exact Or.inl (hid.trans (createdConvOf_some user freshId none _ c0 (hcc.trans h)).1)

/-- C5: a chat request addressing a conversation id that does not exist or
is not owned by the caller proceeds exactly as if no id was supplied — a
fresh conversation is created instead, the stale id is never written to,
and the sibling read endpoint returns 404 for it afterwards. -/
theorem stale_conversation_id_falls_back_to_creation
    (user : UserId) (bm : BodyMessages) (cid : ConvId)
    (convert : List (Option Msg) → Option (List (Option Msg)))
    (freshId : ConvId) (stream : Option String) (f g : Bool) (store : Store)
    (hown : ∀ c ∈ store.convs, ¬ (c.id = cid ∧ c.userId = user))
    (hfresh : freshId ≠ cid) :
    chatPOST (some user) (mkBody bm (some cid)) convert freshId stream f g store
      = chatPOST (some user) (mkBody bm none) convert freshId stream f g store
  ∧ ((chatPOST (some user) (mkBody bm (some cid)) convert freshId stream f g
        store).store.msgs.filter (fun m => m.conversationId = cid))
      = store.msgs.filter (fun m => m.conversationId = cid)
  ∧ getMessages (some user) cid
      (chatPOST (some user) (mkBody bm (some cid)) convert freshId stream f g store).store
      = MessagesResult.notFound := by
  have hres : resolveConv store user (some cid) = none := by
    simp only [resolveConv, List.find?_eq_none, decide_eq_true_eq]
    exact hown
  have hres2 : resolveConv store user none = none := rfl
  have hA : chatPOST (some user) (mkBody bm (some cid)) convert freshId stream f g store
      = chatPOST (some user) (mkBody bm none) convert freshId stream f g store := by
    cases bm with
    | missing => rfl
    | notArray => rfl
    | arr ms => simp only [chatPOST, mkBody, hres, hres2]
  have hB : ((chatPOST (some user) (mkBody bm none) convert freshId stream f g
        store).store.msgs.filter (fun m => m.conversationId = cid))
      = store.msgs.filter (fun m => m.conversationId = cid) := by
    cases bm with
    | missing => rfl
    | notArray => rfl
    | arr ms => exact chatPOST_none_msgs_filter user ms convert freshId stream f g store cid hfresh
  have hC : getMessages (some user) cid
      (chatPOST (some user) (mkBody bm none) convert freshId stream f g store).store
      = MessagesResult.notFound := by
    have hfind : ((chatPOST (some user) (mkBody bm none) convert freshId stream f g
        store).store.convs.find? (fun cv => cv.id = cid ∧ cv.userId = user)) = none := by
      rw [List.find?_eq_none]
      intro c hc
      simp only [decide_eq_true_eq]
      rintro ⟨hcid, hcu⟩
      cases bm with
      | missing => exact hown c hc ⟨hcid, hcu⟩
      | notArray => exact hown c hc ⟨hcid, hcu⟩
      | arr ms =>
        rcases chatPOST_none_convs_mem user ms convert freshId stream f g store c hc with
          h1 | ⟨c0, hc0, hid, huid⟩
        · exact hfresh (h1 ▸ hcid)
        · exact hown c0 hc0 ⟨hid.symm.trans hcid, huid.symm.trans hcu⟩
    simp only [getMessages, hfind]
  exact ⟨hA, by rw [hA]; exact hB, by rw [hA]; exact hC⟩

/-- Conversation store of another user, for the C5 witness. -/
def staleStore : Store :=
  { convs := [{ id := 5, userId := 9, title := "t", touched := false }], msgs := [] }

/-- C5, witness at a concrete stale id. -/
theorem stale_conversation_id_witness :
    chatPOST (some 7) (mkBody (BodyMessages.arr [some (userMsg "x")]) (some 5))
        (fun l => some l) 42 (some "ok") false false staleStore
      = chatPOST (some 7) (mkBody (BodyMessages.arr [some (userMsg "x")]) none)
        (fun l => some l) 42 (some "ok") false false staleStore
  ∧ ((chatPOST (some 7) (mkBody (BodyMessages.arr [some (userMsg "x")]) (some 5))
        (fun l => some l) 42 (some "ok") false false staleStore).store.msgs.filter
        (fun m => m.conversationId = 5))
      = staleStore.msgs.filter (fun m => m.conversationId = 5)
  ∧ getMessages (some 7) 5
      (chatPOST (some 7) (mkBody (BodyMessages.arr [some (userMsg "x")]) (some 5))
        (fun l => some l) 42 (some "ok") false false staleStore).store
      = MessagesResult.notFound :=
  stale_conversation_id_falls_back_to_creation 7 (BodyMessages.arr [some (userMsg "x")]) 5
    (fun l => some l) 42 (some "ok") false false staleStore (by decide) (by decide)

/- ===== C9 ===== -/

theorem strTake_length_le (s : String) (n : Nat) : (s.take n).length ≤ n := by
  rw [String.take_eq]
  show (s.data.take n).length ≤ n
  exact List.length_take_le n s.data

/-- Modelled from the claim: the leading text of a turn — its string
content, or the truthy text of the first text part of its array content. -/
def leadingTextOf (m : Msg) : Option String :=
  match m.content with
  | MContent.str s => some s
  | MContent.parts l =>
    match l.find? (fun p => p.type = "text") with
    | some p => if truthyS p.text then p.text else none
    | none => none
  | MContent.undef => none

/-- Modelled from the claim: the turn has no text part. -/
def hasNoTextPart (m : Msg) : Bool :=
  match m.content with
  | MContent.str _ => false
  | MContent.parts l => (l.find? (fun p => p.type = "text")).isNone
  | MContent.undef => true

/-- C9: when a chat request causes a conversation to be created, the title
is the first 50 characters of the latest user turn leading text, and the
fixed placeholder when that turn has no text part. -/
theorem created_conversation_title_from_leading_text
    (user : UserId) (ms : List (Option Msg)) (cid : Option ConvId)
    (convert : List (Option Msg) → Option (List (Option Msg)))
    (freshId : ConvId) (stream : Option String) (f g : Bool) (store : Store)
    (fid : ConvId) (ttl : String) (m : Msg)
    (hc : (chatPOST (some user) (mkBody (BodyMessages.arr ms) cid) convert freshId stream f g
        store).effects.createdConv = some (fid, ttl))
    (hm : ((validMessagesOf (convertedOf convert ms)).filter
        (fun x => x.role = some "user")).getLast? = some m) :
    (∀ txt, leadingTextOf m = some txt → 50 < txt.length → ttl = txt.take 50)
  ∧ (hasNoTextPart m = true → ttl = "New Conversation") := by
  have httl : ttl = titleOf (validMessagesOf (convertedOf convert ms)) := by
    cases stream with
    | none =>
      simp only [chatPOST, mkBody, Option.map_eq_some', Prod.mk.injEq] at hc
      obtain ⟨c1, hc1, h1, h2⟩ := hc
      unfold createdConvOf at hc1
      split_ifs at hc1
      cases hc1
      exact h2.symm
    | some t =>
      simp only [chatPOST, mkBody, Option.map_eq_some', Prod.mk.injEq] at hc
      obtain ⟨c1, hc1, h1, h2⟩ := hc
      unfold createdConvOf at hc1
      split_ifs at hc1
      cases hc1
      exact h2.symm
  have htitle : titleOf (validMessagesOf (convertedOf convert ms)) =
      (let title : String :=
        match m.content with
        | MContent.str s => s.take 50
        | MContent.parts l =>
          match l.find? (fun p => p.type = "text") with
          | some p => if truthyS p.text then (p.text.getD "").take 50 else "New Conversation"
          | none => "New Conversation"
        | MContent.undef => "New Conversation"
       if title.length > 50 then title.take 50 else title) := by
    unfold titleOf
    rw [hm]
  rw [httl, htitle]
  constructor
  · intro txt hlead hlen
    unfold leadingTextOf at hlead
    cases hcontent : m.content with
    | str s =>
      rw [hcontent] at hlead
      dsimp only at hlead ⊢
      cases Option.some.inj hlead
      rw [if_neg (Nat.not_lt.mpr (strTake_length_le txt 50))]
    | parts l =>
      rw [hcontent] at hlead
      dsimp only at hlead ⊢
      cases hfind : l.find? (fun p => p.type = "text") with
      | none =>
        rw [hfind] at hlead
        exact Option.noConfusion hlead
      | some p =>
        rw [hfind] at hlead
        dsimp only at hlead ⊢
        by_cases htr : truthyS p.text = true
        · rw [if_pos htr] at hlead ⊢
          rw [hlead, Option.getD_some]
          rw [if_neg (Nat.not_lt.mpr (strTake_length_le txt 50))]
        · rw [if_neg htr] at hlead
          exact Option.noConfusion hlead
    | undef =>
      rw [hcontent] at hlead
      dsimp only at hlead
      exact Option.noConfusion hlead
  · intro hnone
    unfold hasNoTextPart at hnone
    cases hcontent : m.content with
    | str s =>
      rw [hcontent] at hnone
      dsimp only at hnone
      exact Bool.noConfusion hnone
    | parts l =>
      rw [hcontent] at hnone
      dsimp only at hnone ⊢
      rw [Option.isNone_iff_eq_none] at hnone
      rw [hnone]
      rfl
    | undef =>
      rfl

/-- A 60-character text for the C9 witness. -/
def C9long : String := "012345678901234567890123456789012345678901234567890123456789"

/-- An image-only user turn for the C9 witness. -/
def C9imgMsg : Msg :=
  { role := some "user", content := MContent.parts [mkImage "data:image/png;base64,AA"] }

set_option maxRecDepth 8000 in
/-- C9, witness: a long leading text is cut to 50 characters, and an
image-only turn gets the fixed placeholder. -/
theorem created_conversation_title_witness :
    ((chatPOST (some 7) (mkBody (BodyMessages.arr [some (userMsg C9long)]) none)
        (fun l => some l) 42 (some "ok") false false { convs := [], msgs := [] }).effects.createdConv
        = some (42, C9long.take 50)
      ∧ C9long.take 50 = C9long.take 50)
  ∧ ((chatPOST (some 7) (mkBody (BodyMessages.arr [some C9imgMsg]) none)
        (fun l => some l) 42 (some "ok") false false { convs := [], msgs := [] }).effects.createdConv
        = some (42, "New Conversation")
      ∧ "New Conversation" = "New Conversation") :=
  ⟨⟨rfl,
    (created_conversation_title_from_leading_text 7 [some (userMsg C9long)] none
      (fun l => some l) 42 (some "ok") false false { convs := [], msgs := [] } 42
      (C9long.take 50) (userMsg C9long) rfl rfl).1 C9long rfl (by decide)⟩,
   ⟨rfl,
    (created_conversation_title_from_leading_text 7 [some C9imgMsg] none
      (fun l => some l) 42 (some "ok") false false { convs := [], msgs := [] } 42
      "New Conversation" C9imgMsg rfl rfl).2 rfl⟩⟩

end ChatSpec
